import Mathlib

/-!
Verification development for the MiniMax_TTS_Translation backend.

Shallow embedding of the duration-fitting retry loop
(`src/api/routes/batch_tts.py`, `batch_generate_tts_for_project`), the
translation-shortening character budget
(`optimize_translation_for_audio_length`), the subtitle parser
(`src/audio_processor.py`, `SubtitleParser.parse_srt`), the timeline
assembler (`AudioProcessor._build_timeline_audio`) and the ingestion
bounds (`src/subtitle_manager.py`, `SubtitleManager.parse_srt_file`).

Modelling conventions:
* Python machine integers are `Int`/`Nat`.
* Python floats are modelled by `Rat`; `round(x, 1)` is modelled as exact
  decimal rounding half-to-even on rationals (all concrete inputs used in
  theorems below are far from representation/tie boundaries, where the
  float and rational semantics agree).
* `None`-able values become `Option`; Python falsy-string checks
  (`if s:`) are modelled as `s ≠ ""`.
* The remote TTS / translation services are oracles passed in as
  functions indexed by call number.
-/

/- Batteries marks rational arithmetic `@[irreducible]`, which blocks
kernel evaluation of concrete rational computations by `decide`; restore
the ordinary reducibility of these (fully computable) operations. -/
set_option allowUnsafeReducibility true in
attribute [semireducible] Rat.add Rat.mul Rat.sub Rat.inv

/-- Python `round` to an integer: round half to even (banker's rounding),
modelled on rationals. -/
def roundHalfEven (q : ℚ) : ℤ :=
  let f : ℤ := ⌊q⌋
  if q - f < 1/2 then f
  else if 1/2 < q - f then f + 1
  else if f % 2 = 0 then f else f + 1

/-- Python `round(x, 1)`: one decimal place, half to even. -/
def roundTo1 (q : ℚ) : ℚ := (roundHalfEven (10 * q) : ℚ) / 10

/-- Python `int(x)` on a float: truncation toward zero. -/
def pyInt (q : ℚ) : ℤ := if 0 ≤ q then ⌊q⌋ else ⌈q⌉

/-- Result of one `tts_service.generate_audio_with_info` call as consumed by
the batch loop: `ok` is `audio_data is not None`, `duration_ms` is
`result['duration_ms']`, `trace` is `result.get('trace_id', '')`
(batch_tts.py lines 284-292). -/
structure TtsResult where
  ok : Bool
  duration_ms : ℤ
  trace : String
  deriving DecidableEq

/-- Mutable per-segment state of the batch retry loop: `current_speed`,
`segment.translated_text`, `translation_optimization_count`, plus the
number of `optimize_translation_for_audio_length` invocations made so far
(the latter is instrumentation: each invocation consumes the next entry
of the shortening oracle, so the count is exactly the oracle index). -/
structure FitState where
  speed : ℚ
  translated : String
  optCount : ℕ
  shortenCalls : ℕ
  deriving DecidableEq

/-- `final_audio_data` after the loop: `None` (loop exhausted without
assignment), the `b'silence_placeholder'` marker, or real audio bytes. -/
inductive FinalAudio where
  | noAudio : FinalAudio
  | silence : FinalAudio
  | real : FinalAudio
  deriving DecidableEq

/-- Outcome of the batch loop for one segment: `final_audio_data`,
`final_duration_ms`, `final_trace_id`, `current_speed`,
`translation_optimization_count`, number of shortening calls, and the
`current_speed` value in effect at each TTS call (mirroring the
per-attempt log lines, batch_tts.py lines 263-268). -/
structure FitResult where
  audio : FinalAudio
  duration : ℤ
  trace : String
  speed : ℚ
  optCount : ℕ
  shortenCalls : ℕ
  speedLog : List ℚ
  deriving DecidableEq

/-- `duration_ratio = t_tts_ms / t_srt_ms if t_srt_ms > 0 else 0`
(batch_tts.py line 303). -/
def ratioOf (tSrt tTts : ℤ) : ℚ := if 0 < tSrt then (tTts : ℚ) / (tSrt : ℚ) else 0

/-- Speed chosen by attempt number once shortening is unavailable for the
rest of the run (batch_tts.py lines 416-431): attempt 0 uses the ratio,
attempt 1 ratio+0.2, attempt 2 ratio+0.4, otherwise 2.0; clamped to 2.0
and rounded to one decimal. -/
def escalationSpeed (attempt : ℕ) (rto : ℚ) : ℚ :=
  let newSpeed : ℚ :=
    if attempt = 0 then rto
    else if attempt = 1 then rto + 1/5
    else if attempt = 2 then rto + 2/5
    else 2
  roundTo1 (min newSpeed 2)

/-- The per-segment retry loop of `batch_generate_tts_for_project`
(batch_tts.py lines 255-459), `for attempt in range(max_retries)` with
`max_retries = 4`.  The list argument is the sequence of remaining values
of the Python loop variable `attempt` (the `attempt += 1` statements in
the body rebind a local that the `for` statement overwrites on the next
iteration, so they are modelled as the no-ops they are); `idx` counts TTS
calls (each iteration performs exactly one); `log` accumulates, most
recent first, the `current_speed` at each TTS call performed so far.
When the list is exhausted the loop falls through with
`final_audio_data = None`, `final_duration_ms = 0`,
`final_trace_id = ""` untouched. -/
def runFit (tSrt : ℤ) (tts : ℕ → TtsResult) (shorten : ℕ → String) :
    List ℕ → ℕ → FitState → List ℚ → FitResult
  | [], _, st, log => ⟨.noAudio, 0, "", st.speed, st.optCount, st.shortenCalls, log.reverse⟩
  | attempt :: rest, idx, st, log =>
    let r := tts idx
    let lg := st.speed :: log
    if r.ok = false then
      -- audio download failed (lines 293-300)
      if attempt < 3 then runFit tSrt tts shorten rest (idx + 1) st lg
      else ⟨.silence, tSrt, r.trace, st.speed, st.optCount, st.shortenCalls, lg.reverse⟩
    else
      let rto := ratioOf tSrt r.duration_ms
      if rto ≤ 1 then
        -- success (lines 337-343)
        ⟨.real, r.duration_ms, r.trace, st.speed, st.optCount, st.shortenCalls, lg.reverse⟩
      else if attempt < 3 then
        if 0 < st.optCount ∧ rto ≤ 1 then
          -- dead branch kept from source (lines 347-352)
          ⟨.real, r.duration_ms, r.trace, st.speed, st.optCount, st.shortenCalls, lg.reverse⟩
        else if 1 < rto ∧ st.optCount < 1 then
          if st.translated ≠ "" then
            -- translation shortening, one oracle call (lines 359-397)
            let optimized := shorten st.shortenCalls
            if optimized ≠ "" then
              if optimized.length < st.translated.length then
                runFit tSrt tts shorten rest (idx + 1)
                  ⟨st.speed, optimized, st.optCount + 1, st.shortenCalls + 1⟩ lg
              else
                runFit tSrt tts shorten rest (idx + 1)
                  ⟨roundTo1 (min rto 2), st.translated, st.optCount + 1, st.shortenCalls + 1⟩ lg
            else
              runFit tSrt tts shorten rest (idx + 1)
                ⟨roundTo1 (min rto 2), st.translated, st.optCount + 1, st.shortenCalls + 1⟩ lg
          else
            -- untranslated segment: speed adjustment only (lines 405-412)
            runFit tSrt tts shorten rest (idx + 1)
              ⟨roundTo1 (min rto 2), st.translated, st.optCount, st.shortenCalls⟩ lg
        else
          -- shortening already consumed: attempt-indexed schedule (413-439)
          runFit tSrt tts shorten rest (idx + 1)
            ⟨escalationSpeed attempt rto, st.translated, st.optCount, st.shortenCalls⟩ lg
      else
        -- last attempt (lines 440-459)
        if 2 ≤ st.speed ∧ 1 < rto then
          ⟨.silence, tSrt, r.trace, st.speed, st.optCount, st.shortenCalls, lg.reverse⟩
        else
          runFit tSrt tts shorten rest (idx + 1)
            ⟨roundTo1 (min (st.speed + 1/5) 2), st.translated, st.optCount, st.shortenCalls⟩ lg

/-- Entry point for one segment: `max_retries = 4` so the loop variable
takes the values `[0, 1, 2, 3]`; initial state is
`current_speed = segment.speed`, `translation_optimization_count = 0`
(batch_tts.py lines 255-260). -/
def batchFitSegment (tSrt : ℤ) (translated : String) (speed0 : ℚ)
    (tts : ℕ → TtsResult) (shorten : ℕ → String) : FitResult :=
  runFit tSrt tts shorten [0, 1, 2, 3] 0 ⟨speed0, translated, 0, 0⟩ []

/-! ## Generic lemmas about the retry loop -/

/-- Any run of the retry loop that ends with the silence marker reports
`final_duration_ms = t_srt_ms`: both silence-assigning exits
(download failure on the final attempt, and speed already at the cap with
ratio still above 1) store `t_srt_ms`. -/
theorem runFit_silence_duration (tSrt : ℤ) (tts : ℕ → TtsResult) (shorten : ℕ → String) :
    ∀ (attempts : List ℕ) (idx : ℕ) (st : FitState) (log : List ℚ),
      (runFit tSrt tts shorten attempts idx st log).audio = .silence →
      (runFit tSrt tts shorten attempts idx st log).duration = tSrt := by
  intro attempts
  induction attempts with
  | nil => intro idx st log h; simp [runFit] at h
  | cons a rest ih =>
    intro idx st log
    simp only [runFit]
    split_ifs <;> first | (intro _; rfl) | (exact ih _ _ _) | (intro h; exact absurd h (by simp))

/-- Once `translation_optimization_count` has reached 1, the loop never
calls the shortening service again and never changes the counter. -/
theorem runFit_optCount_frozen (tSrt : ℤ) (tts : ℕ → TtsResult) (shorten : ℕ → String) :
    ∀ (attempts : List ℕ) (idx : ℕ) (st : FitState) (log : List ℚ), 1 ≤ st.optCount →
      (runFit tSrt tts shorten attempts idx st log).shortenCalls = st.shortenCalls ∧
      (runFit tSrt tts shorten attempts idx st log).optCount = st.optCount := by
  intro attempts
  induction attempts with
  | nil => intro idx st log h; simp [runFit]
  | cons a rest ih =>
    intro idx st log h
    simp only [runFit]
    split_ifs <;> first | exact ⟨rfl, rfl⟩ | exact ih _ _ _ h | omega

/-- A segment with no translated text (`segment.translated_text` falsy)
never reaches the shortening call: the counter and the call count are
left untouched by the whole loop. -/
theorem runFit_no_translation (tSrt : ℤ) (tts : ℕ → TtsResult) (shorten : ℕ → String) :
    ∀ (attempts : List ℕ) (idx : ℕ) (st : FitState) (log : List ℚ), st.translated = "" →
      (runFit tSrt tts shorten attempts idx st log).shortenCalls = st.shortenCalls ∧
      (runFit tSrt tts shorten attempts idx st log).optCount = st.optCount := by
  intro attempts
  induction attempts with
  | nil => intro idx st log h; simp [runFit]
  | cons a rest ih =>
    intro idx st log h
    simp only [runFit]
    split_ifs <;>
      first
        | exact ⟨rfl, rfl⟩
        | exact ih _ _ _ h
        | (exact absurd h (by assumption))

/-- The loop increments `translation_optimization_count` exactly when it
makes a shortening call (every outcome of the call — adopted, rejected
as not shorter, or null — increments it), and from a state where the
counter equals the call count it makes at most one further call if the
counter is 0, none otherwise. -/
theorem runFit_shorten_budget (tSrt : ℤ) (tts : ℕ → TtsResult) (shorten : ℕ → String) :
    ∀ (attempts : List ℕ) (idx : ℕ) (st : FitState) (log : List ℚ),
      st.optCount = st.shortenCalls →
      (runFit tSrt tts shorten attempts idx st log).optCount =
        (runFit tSrt tts shorten attempts idx st log).shortenCalls ∧
      (runFit tSrt tts shorten attempts idx st log).shortenCalls ≤
        st.shortenCalls + (1 - st.optCount) := by
  intro attempts
  induction attempts with
  | nil => intro idx st log h; simp [runFit]; omega
  | cons a rest ih =>
    intro idx st log h
    simp only [runFit]
    split_ifs <;>
      first
        | (constructor <;> simp <;> omega)
        | exact ih _ _ _ h
        | (refine ⟨(ih _ _ _ (by simp; omega)).1,
            le_trans (ih _ _ _ (by simp; omega)).2 (by simp; omega)⟩)

/-! ## Claims about the duration-fitting loop -/

/-- Claim C1 (code bug): with the subtitle window 1000 ms, no translated
text, initial speed 1.0 and every synthesis attempt returning a
1100 ms clip (ratio 1.1 > 1.0 throughout), the loop's own comments and
the spec say it should keep retrying until `speed = 2.0`; instead
`for attempt in range(4)` exhausts after four iterations (the inner
`attempt += 1` never affects the loop counter) and the loop falls
through with no audio assigned (`final_audio_data = None`,
`final_duration_ms = 0`) while the speed is still 1.3 < 2.0. -/
theorem c1_loop_stops_with_speed_headroom :
    batchFitSegment 1000 "" 1 (fun _ => ⟨true, 1100, "t"⟩) (fun _ => "") =
      ⟨.noAudio, 0, "", 13/10, 0, 0, [1, 11/10, 11/10, 11/10]⟩ ∧
    (13/10 : ℚ) < 2 := by
  constructor
  · decide
  · norm_num

/-- Claim C2: whenever the batch duration fitter finishes a segment with
the silence marker as its audio, the recorded `audio_duration_ms` equals
the segment's subtitle window `t_srt_ms` (and the recorded duration is a
total `ℤ` value in every case — the embedding has no null). -/
theorem c2_silence_duration (tSrt : ℤ) (translated : String) (speed0 : ℚ)
    (tts : ℕ → TtsResult) (shorten : ℕ → String)
    (h : (batchFitSegment tSrt translated speed0 tts shorten).audio = .silence) :
    (batchFitSegment tSrt translated speed0 tts shorten).duration = tSrt :=
  runFit_silence_duration tSrt tts shorten _ _ _ _ h

/-- Witness for C2: every download fails, so the final attempt assigns the
silence marker, and the duration is the 800 ms window. -/
theorem c2_silence_duration_witness :
    (batchFitSegment 800 "x" 1 (fun _ => ⟨false, 0, ""⟩) (fun _ => "")).audio
        = .silence ∧
    (batchFitSegment 800 "x" 1 (fun _ => ⟨false, 0, ""⟩) (fun _ => "")).duration = 800 :=
  ⟨by decide, c2_silence_duration 800 "x" 1 (fun _ => ⟨false, 0, ""⟩) (fun _ => "") (by decide)⟩

/-- Claim C4: in one batch duration-fitting run the shortening service is
called at most once, the optimization counter is incremented on every
call outcome (so it always equals the number of calls made), and no call
is ever made when the segment has no translated text. -/
theorem c4_shorten_at_most_once (tSrt : ℤ) (translated : String) (speed0 : ℚ)
    (tts : ℕ → TtsResult) (shorten : ℕ → String) :
    (batchFitSegment tSrt translated speed0 tts shorten).shortenCalls ≤ 1 ∧
    (batchFitSegment tSrt translated speed0 tts shorten).optCount =
      (batchFitSegment tSrt translated speed0 tts shorten).shortenCalls ∧
    (translated = "" →
      (batchFitSegment tSrt translated speed0 tts shorten).shortenCalls = 0) := by
  have hb := runFit_shorten_budget tSrt tts shorten [0, 1, 2, 3] 0
    ⟨speed0, translated, 0, 0⟩ [] rfl
  refine ⟨by simpa using hb.2, hb.1, fun h => ?_⟩
  have hn := runFit_no_translation tSrt tts shorten [0, 1, 2, 3] 0
    ⟨speed0, translated, 0, 0⟩ [] h
  simpa using hn.1

/-- Witness for C4: a translated segment whose first synthesis is too
long; the single shortening call is rejected as not shorter, the counter
ends at 1 and no second call occurs. -/
theorem c4_shorten_at_most_once_witness :
    (batchFitSegment 1000 "hello" 1 (fun _ => ⟨true, 1500, "t"⟩)
        (fun _ => "hello too")).shortenCalls ≤ 1 ∧
    (batchFitSegment 1000 "hello" 1 (fun _ => ⟨true, 1500, "t"⟩)
        (fun _ => "hello too")).optCount =
      (batchFitSegment 1000 "hello" 1 (fun _ => ⟨true, 1500, "t"⟩)
        (fun _ => "hello too")).shortenCalls ∧
    ("hello" = "" →
      (batchFitSegment 1000 "hello" 1 (fun _ => ⟨true, 1500, "t"⟩)
        (fun _ => "hello too")).shortenCalls = 0) :=
  c4_shorten_at_most_once 1000 "hello" 1 (fun _ => ⟨true, 1500, "t"⟩) (fun _ => "hello too")

/-- Claim C10: when the subtitle window is zero or negative the ratio is
defined as 0, so the first attempt whose download succeeds is accepted
outright: the result is that attempt's real audio and duration, the
speed is never escalated, no shortening call is made, and no silence
fallback occurs. -/
theorem c10_nonpositive_window_accepts_first_download (tSrt : ℤ) (translated : String)
    (speed0 : ℚ) (tts : ℕ → TtsResult) (shorten : ℕ → String)
    (hts : tSrt ≤ 0) (k : ℕ) (hk : k ≤ 3)
    (hfail : ∀ j, j < k → (tts j).ok = false) (hok : (tts k).ok = true) :
    ratioOf tSrt (tts k).duration_ms = 0 ∧
    batchFitSegment tSrt translated speed0 tts shorten =
      ⟨.real, (tts k).duration_ms, (tts k).trace, speed0, 0, 0,
        List.replicate (k+1) speed0⟩ := by
  have hr0 : ∀ d, ratioOf tSrt d = 0 := by
    intro d; unfold ratioOf; rw [if_neg]; omega
  refine ⟨hr0 _, ?_⟩
  interval_cases k
  · simp [batchFitSegment, runFit, hok, hr0]
  · simp [batchFitSegment, runFit, hok, hr0, hfail 0 (by omega)]
  · simp [batchFitSegment, runFit, hok, hr0, hfail 0 (by omega), hfail 1 (by omega)]
  · simp [batchFitSegment, runFit, hok, hr0, hfail 0 (by omega), hfail 1 (by omega),
      hfail 2 (by omega)]

/-- Witness for C10: a zero-length window, two failed downloads, success
on the third call; the third clip (1234 ms, far above the window) is
accepted with no escalation. -/
theorem c10_nonpositive_window_witness :
    ratioOf 0 (1234 : ℤ) = 0 ∧
    batchFitSegment 0 "x" 1
        (fun j => if j < 2 then ⟨false, 0, ""⟩ else ⟨true, 1234, "tr"⟩) (fun _ => "") =
      ⟨.real, 1234, "tr", 1, 0, 0, [1, 1, 1]⟩ := by
  have h := c10_nonpositive_window_accepts_first_download 0 "x" 1
    (fun j => if j < 2 then ⟨false, 0, ""⟩ else ⟨true, 1234, "tr"⟩) (fun _ => "")
    (by norm_num) 2 (by norm_num) (fun j hj => by interval_cases j <;> rfl) rfl
  simpa using h

/-- Claim C3, counterexample: an untranslated segment with every synthesis
at ratio 1.5.  Shortening is unavailable on every attempt, so by the
claim the escalation after attempt 1 should set the next speed to the
schedule value `escalationSpeed 1 1.5 = 1.7`; the run's speed log shows
the speed used on attempt 2 is 1.5 (the code takes the
`new_speed = duration_ratio` branch whenever
`translation_optimization_count = 0`, attempt-indexed scheduling is
reached only after a shortening call). -/
theorem c3_schedule_counterexample :
    (batchFitSegment 1000 "" 1 (fun _ => ⟨true, 1500, "t"⟩) (fun _ => "")).speedLog
        = [1, 3/2, 3/2, 3/2] ∧
    escalationSpeed 1 (ratioOf 1000 1500) = 17/10 ∧
    ((3/2 : ℚ) ≠ 17/10) :=
  ⟨by decide, by decide, by norm_num⟩

/-- Claim C3, amended: after an attempt whose ratio exceeds 1.0, the
attempt-indexed schedule (`escalationSpeed`) governs the next speed only
on a non-final attempt with the shortening counter already at least 1;
with counter 0 and no translation, or when the shortening call of the
same iteration returns text that is not shorter (or empty), the next
speed is `round(min(ratio, 2.0), 1)` regardless of attempt number; on
the final attempt with speed below the cap the next speed is
`round(min(speed + 0.2, 2.0), 1)`. -/
theorem c3_escalation_policy (tSrt : ℤ) (tts : ℕ → TtsResult) (shorten : ℕ → String)
    (a : ℕ) (rest : List ℕ) (idx : ℕ) (st : FitState) (log : List ℚ)
    (hok : (tts idx).ok = true)
    (hr : 1 < ratioOf tSrt (tts idx).duration_ms) :
    (a < 3 → 1 ≤ st.optCount →
      runFit tSrt tts shorten (a :: rest) idx st log =
        runFit tSrt tts shorten rest (idx + 1)
          ⟨escalationSpeed a (ratioOf tSrt (tts idx).duration_ms),
            st.translated, st.optCount, st.shortenCalls⟩ (st.speed :: log)) ∧
    (a < 3 → st.optCount = 0 → st.translated = "" →
      runFit tSrt tts shorten (a :: rest) idx st log =
        runFit tSrt tts shorten rest (idx + 1)
          ⟨roundTo1 (min (ratioOf tSrt (tts idx).duration_ms) 2),
            st.translated, st.optCount, st.shortenCalls⟩ (st.speed :: log)) ∧
    (a < 3 → st.optCount = 0 → st.translated ≠ "" → shorten st.shortenCalls ≠ "" →
      ¬ (shorten st.shortenCalls).length < st.translated.length →
      runFit tSrt tts shorten (a :: rest) idx st log =
        runFit tSrt tts shorten rest (idx + 1)
          ⟨roundTo1 (min (ratioOf tSrt (tts idx).duration_ms) 2),
            st.translated, st.optCount + 1, st.shortenCalls + 1⟩ (st.speed :: log)) ∧
    (¬ a < 3 → st.speed < 2 →
      runFit tSrt tts shorten (a :: rest) idx st log =
        runFit tSrt tts shorten rest (idx + 1)
          ⟨roundTo1 (min (st.speed + 1/5) 2),
            st.translated, st.optCount, st.shortenCalls⟩ (st.speed :: log)) := by
  have hnle : ¬ (ratioOf tSrt (tts idx).duration_ms ≤ 1) := not_le.mpr hr
  refine ⟨?_, ?_, ?_, ?_⟩
  · intro h1 h2
    have h3 : ¬ st.optCount < 1 := by omega
    simp [runFit, hok, hnle, h1, h3]
  · intro h1 h2 h3
    have h4 : st.optCount < 1 := by omega
    simp [runFit, hok, hnle, h1, h3, h4, hr]
  · intro h1 h2 h3 h4 h5
    have h6 : st.optCount < 1 := by omega
    simp [runFit, hok, hnle, h1, h3, h4, h5, h6, hr]
  · intro h1 h2
    have h3 : ¬ (2 ≤ st.speed) := not_le.mpr h2
    simp [runFit, hok, hnle, h1, h3]

/-- Witness for the amended C3: a mid-run state with the shortening
counter already at 1 on attempt 1; the schedule value
`escalationSpeed 1 (ratio)` is indeed the speed handed to the rest of
the loop. -/
theorem c3_escalation_policy_witness :
    ((fun _ => (⟨true, 1500, "t"⟩ : TtsResult)) 1).ok = true ∧
    1 < ratioOf 1000 ((fun _ => (⟨true, 1500, "t"⟩ : TtsResult)) 1).duration_ms ∧
    (1 : ℕ) < 3 ∧ 1 ≤ (1 : ℕ) ∧
    runFit 1000 (fun _ => ⟨true, 1500, "t"⟩) (fun _ => "") [1, 2, 3] 1
        ⟨3/2, "x", 1, 1⟩ [1] =
      runFit 1000 (fun _ => ⟨true, 1500, "t"⟩) (fun _ => "") [2, 3] 2
        ⟨escalationSpeed 1 (ratioOf 1000
            ((fun _ => (⟨true, 1500, "t"⟩ : TtsResult)) 1).duration_ms), "x", 1, 1⟩
        ((3/2 : ℚ) :: [1]) :=
  ⟨rfl, by decide, by decide, by decide,
    (c3_escalation_policy 1000 (fun _ => ⟨true, 1500, "t"⟩) (fun _ => "") 1 [2, 3] 1
      ⟨3/2, "x", 1, 1⟩ [1] rfl (by decide)).1 (by decide) (by decide)⟩

/-! ## The translation-shortening character budget (C6) -/

/-- `optimize_translation_for_audio_length` computes
`target_char_count = int(current_char_count * target_audio_length /
current_audio_length)` (batch_tts.py lines 50-52); Python `int()` on a
float truncates toward zero. -/
def target_char_count (currentChars : ℕ) (targetLen currentLen : ℚ) : ℤ :=
  pyInt (currentChars * targetLen / currentLen)

/-- The spec's formula for the same quantity, written with `round(...)`
as the spec's words state it (spec §4.4). -/
def spec_target_char_count (currentChars : ℕ) (targetLen currentLen : ℚ) : ℤ :=
  roundHalfEven (currentChars * targetLen / currentLen)

/-- Claim C6, counterexample: a 5-character translation, current audio
3.0 s, target 1.0 s.  The code computes `int(5/3) = 1`; the spec's
`round(5/3) = 2`. -/
theorem c6_truncation_counterexample :
    target_char_count 5 1 3 = 1 ∧ spec_target_char_count 5 1 3 = 2 ∧
    target_char_count 5 1 3 ≠ spec_target_char_count 5 1 3 :=
  ⟨by decide, by decide, by decide⟩

/-- Claim C6, amended: the target character count is the **floor**
(truncation — the arguments are nonnegative) of
`current_chars * target_audio_len / current_audio_len`, not its rounding. -/
theorem c6_target_chars_floor (currentChars : ℕ) (targetLen currentLen : ℚ)
    (ht : 0 ≤ targetLen) (hc : 0 < currentLen) :
    target_char_count currentChars targetLen currentLen =
      ⌊(currentChars : ℚ) * targetLen / currentLen⌋ := by
  unfold target_char_count pyInt
  rw [if_pos]
  positivity

/-- Witness for the amended C6 at the counterexample's own input. -/
theorem c6_target_chars_floor_witness :
    (0 : ℚ) ≤ 1 ∧ (0 : ℚ) < 3 ∧ target_char_count 5 1 3 = ⌊(5 : ℚ) * 1 / 3⌋ :=
  ⟨by norm_num, by norm_num, c6_target_chars_floor 5 1 3 (by norm_num) (by norm_num)⟩

/-! ## Timeline assembly (`AudioProcessor._build_timeline_audio`,
audio_processor.py lines 908-991) -/

/-- Payload of one descriptor handed to `_build_timeline_audio`:
the `b'silence_placeholder'` marker, real audio bytes (modelled by their
decoded length in ms), or bytes whose decoding raises (the
`except` branch substitutes full-slot silence). -/
inductive SlotData where
  | silenceMarker : SlotData
  | real (decodedLen : ℕ) : SlotData
  | decodeFail : SlotData
  deriving DecidableEq

/-- One audio descriptor: `{'start_time': start_ms, 'end_time': end_ms,
'audio_data': ...}`. -/
structure AudioSlot where
  start_ms : ℤ
  end_ms : ℤ
  data : SlotData
  deriving DecidableEq

/-- Length in ms contributed to the output track by one slot (after the
leading gap, audio_processor.py lines 941-986): a silence marker and a
failed decode contribute the slot length `end - start`; real audio is
hard-truncated when longer than the slot and padded with trailing
silence when shorter (pydub lengths are nonnegative, hence `toNat`). -/
def slotRenderedLen (d : AudioSlot) : ℕ :=
  let required := d.end_ms - d.start_ms
  match d.data with
  | .silenceMarker => required.toNat
  | .real n =>
      if (n : ℤ) > required then required.toNat
      else if (n : ℤ) < required then n + (required - n).toNat
      else n
  | .decodeFail => required.toNat

/-- One iteration of the assembly loop over the state
`(current_time, len(final_audio))`: close a positive gap with silence of
length `start - current_time`, then append the slot's rendered audio and
advance the cursor to `end_time` (audio_processor.py lines 927-987). -/
def assembleStep : ℤ × ℕ → AudioSlot → ℤ × ℕ
  | (cur, len), d =>
    let afterGap : ℤ × ℕ :=
      if d.start_ms > cur then (d.start_ms, len + (d.start_ms - cur).toNat)
      else (cur, len)
    (d.end_ms, afterGap.2 + slotRenderedLen d)

/-- `sorted(audio_segments, key=lambda x: x['start_time'])`
(audio_processor.py line 921; Python `sorted` is a stable merge sort). -/
def sortByStart (l : List AudioSlot) : List AudioSlot :=
  l.mergeSort (fun a b => decide (a.start_ms ≤ b.start_ms))

/-- Total length in ms of the track built by `_build_timeline_audio`. -/
def assembleLen (l : List AudioSlot) : ℕ :=
  ((sortByStart l).foldl assembleStep (0, 0)).2

/-- `max(d.end_ms for d in descriptors)` (with 0 for an empty list). -/
def maxEnd (l : List AudioSlot) : ℤ := (l.map AudioSlot.end_ms).foldl max 0

/-- Every slot kind contributes exactly its slot length once the slot is
well-formed (`start < end`). -/
theorem slotRenderedLen_eq (d : AudioSlot) (h : d.start_ms < d.end_ms) :
    slotRenderedLen d = (d.end_ms - d.start_ms).toNat := by
  unfold slotRenderedLen
  rcases d with ⟨s, e, data⟩
  cases data with
  | silenceMarker => rfl
  | real n =>
    simp only
    split_ifs with h1 h2 <;> omega
  | decodeFail => rfl

/-- Invariant of the assembly fold: starting at cursor `cur ≤` the first
start with `0 ≤ cur`, over a non-overlapping chain of well-formed slots,
the fold ends with the cursor at the last slot's end and adds exactly
`lastEnd - cur` ms to the accumulated length. -/
theorem assemble_fold :
    ∀ (rest : List AudioSlot) (d : AudioSlot) (cur : ℤ) (len : ℕ),
      0 ≤ cur → cur ≤ d.start_ms →
      List.Chain' (fun a b => a.end_ms ≤ b.start_ms) (d :: rest) →
      (∀ x ∈ d :: rest, x.start_ms < x.end_ms) →
      ((d :: rest).foldl assembleStep (cur, len)).1 =
          ((d :: rest).getLast (by simp)).end_ms ∧
      ((d :: rest).foldl assembleStep (cur, len)).2 =
          len + (((d :: rest).getLast (by simp)).end_ms - cur).toNat ∧
      cur ≤ ((d :: rest).getLast (by simp)).end_ms := by
  intro rest
  induction rest with
  | nil =>
    intro d cur len h0 hle _ hlt
    have hse : d.start_ms < d.end_ms := hlt d (by simp)
    have hstep : assembleStep (cur, len) d =
        (d.end_ms, len + (d.end_ms - cur).toNat) := by
      simp only [assembleStep, slotRenderedLen_eq d hse]
      split_ifs with hgap <;> simp <;> omega
    simp only [List.foldl_cons, List.foldl_nil, List.getLast_singleton]
    rw [hstep]
    exact ⟨rfl, rfl, by omega⟩
  | cons e rest ih =>
    intro d cur len h0 hle hchain hlt
    have hse : d.start_ms < d.end_ms := hlt d (by simp)
    have hde : d.end_ms ≤ e.start_ms := (List.chain'_cons.mp hchain).1
    have hchain' : List.Chain' (fun a b => a.end_ms ≤ b.start_ms) (e :: rest) :=
      (List.chain'_cons.mp hchain).2
    have hlt' : ∀ x ∈ e :: rest, x.start_ms < x.end_ms := by
      intro x hx; exact hlt x (by simp [hx])
    have step : (d :: e :: rest).foldl assembleStep (cur, len) =
        (e :: rest).foldl assembleStep (assembleStep (cur, len) d) := by
      simp [List.foldl_cons]
    have hstep : assembleStep (cur, len) d =
        (d.end_ms, len + (d.end_ms - cur).toNat) := by
      simp only [assembleStep, slotRenderedLen_eq d hse]
      split_ifs with hgap <;> simp <;> omega
    have h0' : (0:ℤ) ≤ d.end_ms := by omega
    have hle' : d.end_ms ≤ e.start_ms := hde
    have := ih e d.end_ms (len + (d.end_ms - cur).toNat) h0' hle' hchain' hlt'
    have hlast : ((d :: e :: rest).getLast (by simp)).end_ms =
        ((e :: rest).getLast (by simp)).end_ms := by
      rw [List.getLast_cons (by simp)]
    rw [step, hstep, hlast]
    have hcurlast := this.2.2
    exact ⟨this.1, by rw [this.2.1]; omega, by omega⟩

/-- Over a non-overlapping chain of well-formed slots the maximum end
timestamp is the last slot's end. -/
theorem foldl_max_chain :
    ∀ (rest : List AudioSlot) (d : AudioSlot) (acc : ℤ),
      List.Chain' (fun a b => a.end_ms ≤ b.start_ms) (d :: rest) →
      (∀ x ∈ d :: rest, x.start_ms < x.end_ms) →
      acc ≤ d.end_ms →
      ((d :: rest).map AudioSlot.end_ms).foldl max acc =
        ((d :: rest).getLast (by simp)).end_ms := by
  intro rest
  induction rest with
  | nil =>
    intro d acc _ _ hacc
    simp [List.getLast_singleton]
    omega
  | cons e rest ih =>
    intro d acc hchain hlt hacc
    have hde : d.end_ms ≤ e.start_ms := (List.chain'_cons.mp hchain).1
    have hchain' := (List.chain'_cons.mp hchain).2
    have hlt' : ∀ x ∈ e :: rest, x.start_ms < x.end_ms := by
      intro x hx; exact hlt x (by simp [hx])
    have hee : e.start_ms < e.end_ms := hlt e (by simp)
    have hlast : ((d :: e :: rest).getLast (by simp)).end_ms =
        ((e :: rest).getLast (by simp)).end_ms := by
      rw [List.getLast_cons (by simp)]
    rw [hlast]
    have hstep : ((d :: e :: rest).map AudioSlot.end_ms).foldl max acc =
        ((e :: rest).map AudioSlot.end_ms).foldl max (max acc d.end_ms) := by
      simp [List.foldl_cons]
    rw [hstep]
    exact ih e (max acc d.end_ms) hchain' hlt' (by omega)

/-- Claim C5: for every nonempty list of descriptors with nonnegative
timestamps, sorted by `start_ms` and non-overlapping (each start at
least the previous end, every `start < end`), the assembled track's
total length equals the maximum `end_ms` over the descriptors: gaps are
closed with silence of exactly `start - cursor` ms and every slot
(truncated/padded real audio, silence marker, or decode-failure
substitute) contributes exactly `end - start` ms. -/
theorem c5_timeline_length (l : List AudioSlot) (hne : l ≠ [])
    (hsorted : l.Pairwise (fun a b => a.start_ms ≤ b.start_ms))
    (hchain : List.Chain' (fun a b => a.end_ms ≤ b.start_ms) l)
    (hlt : ∀ x ∈ l, x.start_ms < x.end_ms)
    (hpos : ∀ x ∈ l, 0 ≤ x.start_ms) :
    assembleLen l = (maxEnd l).toNat := by
  have hsort : sortByStart l = l := by
    apply List.mergeSort_of_sorted
    exact hsorted.imp (fun h => decide_eq_true h)
  rcases l with _ | ⟨d, rest⟩
  · exact absurd rfl hne
  · have hd0 : (0:ℤ) ≤ d.start_ms := hpos d (by simp)
    have hf := assemble_fold rest d 0 0 le_rfl hd0 hchain hlt
    have hm := foldl_max_chain rest d 0 hchain hlt
      (by have := hlt d (by simp); omega)
    unfold assembleLen maxEnd
    rw [hsort, hf.2.1, hm]
    omega

/-- Witness for C5: a 1200 ms clip in the slot 0-1000 ms (truncated)
followed after a 500 ms gap by a silence marker in 1500-2000 ms; the
assembled length is the maximum end, 2000 ms. -/
theorem c5_timeline_length_witness :
    ([⟨0, 1000, .real 1200⟩, ⟨1500, 2000, .silenceMarker⟩] : List AudioSlot) ≠ [] ∧
    assembleLen [⟨0, 1000, .real 1200⟩, ⟨1500, 2000, .silenceMarker⟩] =
      (maxEnd [⟨0, 1000, .real 1200⟩, ⟨1500, 2000, .silenceMarker⟩]).toNat ∧
    maxEnd [⟨0, 1000, .real 1200⟩, ⟨1500, 2000, .silenceMarker⟩] = 2000 :=
  ⟨by decide,
    c5_timeline_length _ (by decide)
      (by decide)
      (List.chain'_cons.mpr ⟨by decide, List.chain'_singleton _⟩)
      (by decide)
      (by decide),
    by decide⟩

/-! ## Subtitle parsing (`SubtitleParser.parse_srt`,
audio_processor.py lines 25-139)

The parser is embedded over `List Char`.  Python `re` character classes
are modelled over ASCII (`\s`, `\d`, `\w`); all regular expressions of
the source are hand-compiled to matchers with the same
greedy/backtracking semantics, as noted at each definition. -/

/-- ASCII model of Python's `\s` / `str.strip()` whitespace. -/
def isPySpace (c : Char) : Bool :=
  c = ' ' || c = '\t' || c = '\n' || c = '\r' || c = '\x0b' || c = '\x0c'

/-- ASCII model of Python's `\d`. -/
def isPyDigit (c : Char) : Bool := '0' ≤ c && c ≤ '9'

/-- ASCII model of Python's `\w`. -/
def isPyWordChar (c : Char) : Bool :=
  ('a' ≤ c && c ≤ 'z') || ('A' ≤ c && c ≤ 'Z') || isPyDigit c || c = '_'

/-- `content.replace('\r\n', '\n').replace('\r', '\n')`
(audio_processor.py line 36): every CR, alone or in CRLF, becomes LF. -/
def normNewlines : List Char → List Char
  | [] => []
  | '\r' :: '\n' :: r => '\n' :: normNewlines r
  | '\r' :: r => '\n' :: normNewlines r
  | c :: r => c :: normNewlines r

/-- Split a character list at its **last** `'\n'`: returns the prefix up
to and including that newline, and the suffix after it. -/
def lastNlSplit : List Char → Option (List Char × List Char)
  | [] => none
  | c :: rest =>
    match lastNlSplit rest with
    | some (a, b) => some (c :: a, b)
    | none => if c = '\n' then some ([c], rest) else none

/-- Match the regex `\n\s*\n` at the head of the input and return the
remainder after the match.  Greedy `\s*` backtracks to the last `'\n'`
of the whitespace run following the first newline, so the remainder
starts with the run's trailing non-newline whitespace (if any). -/
def matchNlWsNl (l : List Char) : Option (List Char) :=
  match l with
  | '\n' :: rest =>
    let ws := rest.takeWhile isPySpace
    let tail := rest.drop ws.length
    match lastNlSplit ws with
    | some (_, after) => some (after ++ tail)
    | none => none
  | _ => none

/-- `re.sub(r'\n\s*\n', '\n\n', content)` (audio_processor.py line 37),
fuelled scan (each step consumes at least one character). -/
def pySubAux : ℕ → List Char → List Char
  | 0, l => l
  | fuel+1, l =>
    match matchNlWsNl l with
    | some rest => '\n' :: '\n' :: pySubAux fuel rest
    | none =>
      match l with
      | [] => []
      | c :: t => c :: pySubAux fuel t

/-- `re.sub(r'\n\s*\n', '\n\n', content)` with adequate fuel. -/
def pySubNlWsNl (l : List Char) : List Char := pySubAux l.length l

/-- `str.strip()`. -/
def pyStrip (l : List Char) : List Char :=
  ((l.dropWhile isPySpace).reverse.dropWhile isPySpace).reverse

/-- `re.split(r'\n\s*\n', content)` (audio_processor.py line 40),
fuelled scan accumulating the current part in reverse. -/
def pySplitAux : ℕ → List Char → List Char → List (List Char)
  | 0, acc, _ => [acc.reverse]
  | fuel+1, acc, l =>
    match matchNlWsNl l with
    | some rest => acc.reverse :: pySplitAux fuel [] rest
    | none =>
      match l with
      | [] => [acc.reverse]
      | c :: t => pySplitAux fuel (c :: acc) t

/-- `re.split(r'\n\s*\n', content)` with adequate fuel. -/
def pySplitBlocks (l : List Char) : List (List Char) := pySplitAux l.length [] l

/-- `str.split(sep)` for a one-character separator. -/
def splitOnChar (sep : Char) : List Char → List (List Char)
  | [] => [[]]
  | c :: r =>
    let rest := splitOnChar sep r
    if c = sep then [] :: rest
    else (c :: rest.headD []) :: rest.tail

/-- `re.match(r'^\d+$', s)` on an already-stripped line: a nonempty
all-digit string. -/
def isBareInt (l : List Char) : Bool := !l.isEmpty && l.all isPyDigit

/-- `int(...)` on an all-digit string. -/
def digitsToNat (l : List Char) : ℕ :=
  l.foldl (fun n c => 10 * n + (c.toNat - '0'.toNat)) 0

/-- Consume exactly `n` digits. -/
def takeDigitsExact : ℕ → List Char → Option (List Char × List Char)
  | 0, l => some ([], l)
  | n+1, c :: r =>
    if isPyDigit c then (takeDigitsExact n r).map (fun p => (c :: p.1, p.2)) else none
  | _+1, [] => none

/-- Consume one expected character. -/
def expectChar (c : Char) : List Char → Option (List Char)
  | x :: r => if x = c then some r else none
  | [] => none

/-- Consume a required literal prefix. -/
def stripPrefixChars : List Char → List Char → Option (List Char)
  | [], l => some l
  | p :: ps, c :: cs => if c = p then stripPrefixChars ps cs else none
  | _ :: _, [] => none

/-- Match `\d{2}:\d{2}:\d{2}<sep>\d{3}` where `<sep>` ranges over the
pattern's separator class; returns the matched text and the rest. -/
def tsMatch (seps : List Char) (l : List Char) : Option (List Char × List Char) := do
  let (d1, r1) ← takeDigitsExact 2 l
  let r2 ← expectChar ':' r1
  let (d2, r3) ← takeDigitsExact 2 r2
  let r4 ← expectChar ':' r3
  let (d3, r5) ← takeDigitsExact 2 r4
  match r5 with
  | s :: r6 =>
    if s ∈ seps then do
      let (ms, r7) ← takeDigitsExact 3 r6
      some (d1 ++ ':' :: d2 ++ ':' :: d3 ++ s :: ms, r7)
    else none
  | [] => none

/-- Match `\s*-->\s*` (the arrow is not whitespace, so greedy `\s*`
never backtracks here). -/
def matchArrow (l : List Char) : Option (List Char) :=
  match l.dropWhile isPySpace with
  | '-' :: '-' :: '>' :: r => some (r.dropWhile isPySpace)
  | _ => none

/-- `re.match(r'(\d{2}:\d{2}:\d{2}[,.]\d{3})\s*-->\s*(\d{2}:\d{2}:\d{2}[,.]\d{3})', time_line)`
(audio_processor.py line 84): anchored at the start, returns the two
timestamp groups. -/
def standardMatch (l : List Char) : Option (List Char × List Char) := do
  let (t1, r1) ← tsMatch [',', '.'] l
  let r2 ← matchArrow r1
  let (t2, _) ← tsMatch [',', '.'] r2
  some (t1, t2)

/-- The bracketed pattern `\[(\d{2}:\d{2}:\d{2}\.\d{3})\s*-->\s*(\d{2}:\d{2}:\d{2}\.\d{3})\]`
tried at one position. -/
def bracketMatchAt (l : List Char) : Option (List Char × List Char) :=
  match l with
  | '[' :: r1 => do
    let (t1, r2) ← tsMatch ['.'] r1
    let r3 ← matchArrow r2
    let (t2, r4) ← tsMatch ['.'] r3
    let _ ← expectChar ']' r4
    some (t1, t2)
  | _ => none

/-- Optional group `(SPEAKER_\d+)?`: a literal `SPEAKER_` followed by at
least one digit (greedy), or nothing. -/
def matchSpeaker (l : List Char) : Option (List Char) × List Char :=
  match stripPrefixChars ("SPEAKER_".data) l with
  | some r =>
    let ds := r.takeWhile isPyDigit
    if ds.isEmpty then (none, l)
    else (some ("SPEAKER_".data ++ ds), r.drop ds.length)
  | none => (none, l)

/-- Optional group `(?:\[emotion:\s*(\w+)\])?`: returns the captured
word when the whole group matches. -/
def matchEmotion (l : List Char) : Option (List Char) :=
  match stripPrefixChars ("[emotion:".data) l with
  | some r =>
    let r1 := r.dropWhile isPySpace
    let w := r1.takeWhile isPyWordChar
    if w.isEmpty then none
    else
      match r1.drop w.length with
      | ']' :: _ => some w
      | _ => none
  | none => none

/-- The extended pattern of audio_processor.py line 73,
`\[(ts.)\s*-->\s*(ts.)\]\s*(SPEAKER_\d+)?\s*(?:\[emotion:\s*(\w+)\])?`,
tried at one position; everything after the closing bracket is
optional, so the groups may be absent. -/
def extendedMatchAt (l : List Char) :
    Option (List Char × List Char × Option (List Char) × Option (List Char)) :=
  match l with
  | '[' :: r1 => do
    let (t1, r2) ← tsMatch ['.'] r1
    let r3 ← matchArrow r2
    let (t2, r4) ← tsMatch ['.'] r3
    let r5 ← expectChar ']' r4
    let r6 := r5.dropWhile isPySpace
    let (spk, r7) := matchSpeaker r6
    let r8 := r7.dropWhile isPySpace
    let emo := matchEmotion r8
    some (t1, t2, spk, emo)
  | _ => none

/-- `re.search`: try the matcher at every position, leftmost success
wins (fuelled by the input length). -/
def searchAux {α : Type} (f : List Char → Option α) : ℕ → List Char → Option α
  | 0, l => f l
  | fuel+1, l =>
    match f l with
    | some x => some x
    | none =>
      match l with
      | [] => none
      | _ :: t => searchAux f fuel t

/-- `re.search` of the extended pattern over a line. -/
def extendedSearch (l : List Char) :
    Option (List Char × List Char × Option (List Char) × Option (List Char)) :=
  searchAux extendedMatchAt l.length l

/-- `re.search` of the bracketed pattern over a line. -/
def bracketSearch (l : List Char) : Option (List Char × List Char) :=
  searchAux bracketMatchAt l.length l

/-- `start_time.replace('.', ',')` (audio_processor.py lines 95-96). -/
def replaceDotComma (l : List Char) : List Char :=
  l.map fun c => if c = '.' then ',' else c

/-- `' '.join(...)`. -/
def joinSpace : List (List Char) → List Char
  | [] => []
  | [x] => x
  | x :: xs => x ++ ' ' :: joinSpace xs

/-- One parsed subtitle record as yielded by `parse_srt`
(`'index'/'start'/'end'/'text'/'speaker'/'emotion'`; `end` is a Lean
keyword, hence `stop`). -/
structure RawSeg where
  index : ℕ
  start : List Char
  stop : List Char
  text : List Char
  speaker : List Char
  emotion : List Char
  deriving DecidableEq

/-- The body of `parse_srt`'s per-block loop (audio_processor.py lines
42-110) for the block at raw position `i` (0-based, across **all**
blocks of the blank-line split): `none` when the block is skipped. The
per-block `except (ValueError, IndexError)` is vacuous here — the
embedding is total. -/
def parseBlock (i : ℕ) (block : List Char) : Option RawSeg :=
  if (pyStrip block).isEmpty then none
  else
    let lines := splitOnChar '\n' (pyStrip block)
    if lines.length < 2 then none
    else
      let first := pyStrip (lines.headD [])
      let index := if isBareInt first then digitsToNat first else i + 1
      let lineIndex := if isBareInt first then 1 else 0
      if lines.length ≤ lineIndex then none
      else
        let timeLine := pyStrip (lines.getD lineIndex [])
        let parsed :
            Option (List Char × List Char × Option (List Char) × Option (List Char)) :=
          match extendedSearch timeLine with
          | some r => some r
          | none =>
            match standardMatch timeLine with
            | some (t1, t2) => some (t1, t2, none, none)
            | none =>
              match bracketSearch timeLine with
              | some (t1, t2) => some (t1, t2, none, none)
              | none => none
        match parsed with
        | none => none
        | some (t1, t2, spk, emo) =>
          let speaker := spk.getD ("SPEAKER_00".data)
          let emotion := emo.getD ("neutral".data)
          let textLines := lines.drop (lineIndex + 1)
          let text := joinSpace (((textLines.map pyStrip).filter (fun t => !t.isEmpty)))
          if text.isEmpty then none
          else some ⟨index, replaceDotComma t1, replaceDotComma t2, text, speaker, emotion⟩

/-- The blank-line block-splitting pipeline of `parse_srt`: normalise
newlines, normalise blank lines, strip, split on blank lines
(audio_processor.py lines 36-40). -/
def blocksOf (content : List Char) : List (List Char) :=
  pySplitBlocks (pyStrip (pySubNlWsNl (normNewlines content)))

/-- The segments yielded by the block-splitting strategy: each raw block
position is offered to `parseBlock`, skipped blocks yield nothing. -/
def blockSegments (content : List Char) : List RawSeg :=
  (blocksOf content).enum.filterMap fun p => parseBlock p.1 p.2

/-- `SubtitleParser.parse_srt` (audio_processor.py lines 25-139): the
`try` body returns the block-splitting strategy's segments — also when
they are zero — and the `except` fallback (modelled separately as
`fallbackSegments`) is reachable only via an exception escaping the
block strategy, which the total embedding has no counterpart for;
malformed blocks merely make `parseBlock` return `none`. -/
def parseSrt (content : List Char) : List RawSeg := blockSegments content

/-! ### The exception-path fallback strategy (audio_processor.py lines
121-139): one global regex
`(\d+)\s*\n(\d{2}:\d{2}:\d{2},\d{3})\s*-->\s*(\d{2}:\d{2}:\d{2},\d{3})\s*\n(.*?)(?=\n\s*\n|\n\s*\d+\s*\n|\Z)`
applied with `re.findall(..., re.DOTALL)`. -/

/-- The lookahead `(?=\n\s*\n|\n\s*\d+\s*\n|\Z)`: end of input; or a
newline whose following whitespace run contains another newline; or a
newline, optional whitespace, digits, then whitespace containing a
newline. -/
def lookaheadStop (l : List Char) : Bool :=
  match l with
  | [] => true
  | '\n' :: r =>
    let ws := r.takeWhile isPySpace
    if ws.contains '\n' then true
    else
      let r2 := r.drop ws.length
      let ds := r2.takeWhile isPyDigit
      if ds.isEmpty then false
      else ((r2.drop ds.length).takeWhile isPySpace).contains '\n'
  | _ => false

/-- The lazy group `(.*?)` under `re.DOTALL`: grow the text one
character at a time until the lookahead succeeds (it always succeeds at
the end of input). -/
def lazyText : ℕ → List Char → List Char → Option (List Char × List Char)
  | 0, acc, l => if lookaheadStop l then some (acc.reverse, l) else none
  | fuel+1, acc, l =>
    if lookaheadStop l then some (acc.reverse, l)
    else
      match l with
      | [] => none
      | c :: t => lazyText fuel (c :: acc) t

/-- `text.replace('\n', ' ')`. -/
def replaceNlSpace (l : List Char) : List Char :=
  l.map fun c => if c = '\n' then ' ' else c

/-- The fallback entry pattern tried at one position.  After the index
digits, greedy `\s*\n` followed by a digit requires the whitespace run
to end with a newline; before the text it consumes through the **last**
newline of the whitespace run.  The yielded record already carries
`text.strip().replace('\n', ' ')` and the fixed speaker/emotion
defaults (audio_processor.py lines 128-139). -/
def fallbackEntryAt (l : List Char) : Option (RawSeg × List Char) :=
  let ds := l.takeWhile isPyDigit
  if ds.isEmpty then none
  else
    let r1 := l.drop ds.length
    let ws := r1.takeWhile isPySpace
    match ws.getLast? with
    | some '\n' => do
      let r2 := r1.drop ws.length
      let (t1, r3) ← tsMatch [','] r2
      let r4 ← matchArrow r3
      let (t2, r5) ← tsMatch [','] r4
      let ws2 := r5.takeWhile isPySpace
      let (_, after) ← lastNlSplit ws2
      let tail := r5.drop ws2.length
      let (txt, rest) ← lazyText (after ++ tail).length [] (after ++ tail)
      some (⟨digitsToNat ds, t1, t2, replaceNlSpace (pyStrip txt),
             "SPEAKER_00".data, "neutral".data⟩, rest)
    | _ => none

/-- `re.findall` scan: leftmost non-overlapping matches, advancing one
character on failure (fuelled by the input length). -/
def fallbackScanAux : ℕ → List Char → List RawSeg
  | 0, l =>
    (match fallbackEntryAt l with
     | some (seg, _) => [seg]
     | none => [])
  | fuel+1, l =>
    match fallbackEntryAt l with
    | some (seg, rest) => seg :: fallbackScanAux fuel rest
    | none =>
      match l with
      | [] => []
      | _ :: t => fallbackScanAux fuel t

/-- The segments the fallback strategy would return for a document:
all regex matches whose processed text is nonempty. -/
def fallbackSegments (content : List Char) : List RawSeg :=
  (fallbackScanAux content.length content).filter fun s => !s.text.isEmpty

/-! ## Claims about the parser (C7, C8) -/

/-- A document on which the block strategy yields nothing while the
fallback regex would match: two bare-integer lines before the
timestamp make the block parser treat line `"2"` as the timestamp line
and skip the block, while the global regex happily matches starting at
the `2`. -/
def docNoFallback : List Char := "1\n2\n00:00:01,000 --> 00:00:02,000\nhello".data

/-- A document whose first raw block is discarded (single line, no
timestamp) while the second block, without a sequence number, yields the
only record. -/
def docSkippedBlock : List Char :=
  "garbage\n\n00:00:01,000 --> 00:00:02,000\nhello".data

/-- Claim C7, counterexample: on `docNoFallback` the block-splitting
strategy yields zero segments, yet `parse_srt` returns the empty list
and **not** the fallback strategy's (nonempty) matches — the fallback
runs only when the `try` body raises, not when it yields nothing. -/
theorem c7_no_fallback_on_empty_counterexample :
    parseSrt docNoFallback = [] ∧
    fallbackSegments docNoFallback =
      [⟨2, "00:00:01,000".data, "00:00:02,000".data, "hello".data,
        "SPEAKER_00".data, "neutral".data⟩] ∧
    fallbackSegments docNoFallback ≠ [] :=
  ⟨by decide, by decide, by decide⟩

/-- Claim C7, amended: when the block-splitting strategy yields zero
segments, `parse_srt` returns the empty list (the caller then reports
"no valid subtitle content"); the global-regex fallback is reached only
through an exception escaping the block strategy — never because the
result is empty — and malformed blocks cannot raise: they are skipped
inside the loop (`parseBlock` returns `none`, and the embedding of the
`try` body is total). -/
theorem c7_zero_segments_yield_empty (content : List Char)
    (h : blockSegments content = []) : parseSrt content = [] := h

/-- Witness for the amended C7 at the counterexample document. -/
theorem c7_zero_segments_yield_empty_witness :
    blockSegments docNoFallback = [] ∧ parseSrt docNoFallback = [] :=
  ⟨by decide, c7_zero_segments_yield_empty docNoFallback (by decide)⟩

/-- Claim C8, counterexample: in `docSkippedBlock` the only yielded
record comes from a block with no bare-integer first line, sits at
1-based position 1 among the yielded segments, yet carries index 2 —
its position among the **raw** blocks — because the discarded first
block also consumed an enumeration slot. -/
theorem c8_default_index_counterexample :
    (parseSrt docSkippedBlock).map RawSeg.index = [2] ∧
    isBareInt (pyStrip ((splitOnChar '\n'
      (pyStrip ((blocksOf docSkippedBlock).getD 1 []))).headD [])) = false ∧
    ([2] : List ℕ) ≠ [1] :=
  ⟨by decide, by decide, by decide⟩

/-- Claim C8, amended: every yielded record comes from some raw block
position `i` of the blank-line split, and when that block does not
begin with a bare integer the record's index is `i + 1` — its 1-based
position among the **raw** blocks (discarded blocks included), not
among the yielded segments. -/
theorem c8_default_index_raw_position (content : List Char) :
    (∀ s ∈ parseSrt content, ∃ i b,
      (i, b) ∈ (blocksOf content).enum ∧ parseBlock i b = some s) ∧
    (∀ (i : ℕ) (b : List Char) (s : RawSeg), parseBlock i b = some s →
      isBareInt (pyStrip ((splitOnChar '\n' (pyStrip b)).headD [])) = false →
      s.index = i + 1) := by
  constructor
  · intro s hs
    simp only [parseSrt, blockSegments, List.mem_filterMap] at hs
    obtain ⟨⟨i, b⟩, hmem, hp⟩ := hs
    exact ⟨i, b, hmem, hp⟩
  · intro i b s h hbare
    simp only [parseBlock, hbare] at h
    simp only [Bool.false_eq_true, if_false] at h
    split at h
    · exact absurd h (by simp)
    · split at h
      · exact absurd h (by simp)
      · split at h
        · exact absurd h (by simp)
        · split at h
          · exact absurd h (by simp)
          · split at h
            · exact absurd h (by simp)
            · simp only [Option.some.injEq] at h
              subst h
              rfl

/-- Witness for the amended C8 at the counterexample document: the
yielded record stems from raw block 1 whose first line is not a bare
integer, and indeed has index 1 + 1. -/
theorem c8_default_index_raw_position_witness :
    parseBlock 1 ((blocksOf docSkippedBlock).getD 1 []) =
      some ⟨2, "00:00:01,000".data, "00:00:02,000".data, "hello".data,
        "SPEAKER_00".data, "neutral".data⟩ ∧
    isBareInt (pyStrip ((splitOnChar '\n'
      (pyStrip ((blocksOf docSkippedBlock).getD 1 []))).headD [])) = false ∧
    (⟨2, "00:00:01,000".data, "00:00:02,000".data, "hello".data,
        "SPEAKER_00".data, "neutral".data⟩ : RawSeg).index = 1 + 1 :=
  ⟨by decide, by decide,
    (c8_default_index_raw_position docSkippedBlock).2 1
      ((blocksOf docSkippedBlock).getD 1 [])
      ⟨2, "00:00:01,000".data, "00:00:02,000".data, "hello".data,
        "SPEAKER_00".data, "neutral".data⟩ (by decide) (by decide)⟩

/-! ## Ingestion bounds (`SubtitleManager.parse_srt_file`,
subtitle_manager.py lines 259-318, claim C9) -/

/-- `int(s)` on a (here always digit-only) string, `none` when Python
`int()` would raise. -/
def parsePyNat (l : List Char) : Option ℕ :=
  if !l.isEmpty && l.all isPyDigit then some (digitsToNat l) else none

/-- `SubtitleParser._time_to_seconds` (audio_processor.py lines 151-156):
`h, m, s = t.split(':')`, `s, ms = s.split(',')`,
`int(h)*3600 + int(m)*60 + int(s) + int(ms)/1000`; `none` models the
exceptions raised on any other shape. -/
def timeToSeconds (t : List Char) : Option ℚ :=
  match splitOnChar ':' t with
  | [h, m, s0] =>
    match splitOnChar ',' s0 with
    | [s, ms] => do
      let hn ← parsePyNat h
      let mn ← parsePyNat m
      let sn ← parsePyNat s
      let msn ← parsePyNat ms
      some ((hn : ℚ) * 3600 + mn * 60 + sn + (msn : ℚ) / 1000)
    | _ => none
  | _ => none

/-- Which `return False, ...` of `parse_srt_file` fired. -/
inductive RejectReason where
  | invalidOrEmpty : RejectReason
  | tooManySegments : RejectReason
  | tooLong : RejectReason
  | internalError : RejectReason
  deriving DecidableEq

/-- Outcome of `SubtitleManager.parse_srt_file`: an error tuple
`(False, msg, None)` (no project is created), or `(True, "", project)`
carrying the parsed segments.  The subsequent `SubtitleSegment`
construction (re-indexing, emotion detection) does not affect the
acceptance decision and is not modelled. -/
inductive SrtFileOutcome where
  | rejected : RejectReason → SrtFileOutcome
  | accepted : List RawSeg → SrtFileOutcome
  deriving DecidableEq

/-- The validation cascade of `parse_srt_file` (subtitle_manager.py
lines 276-290): empty parse → error; more than 500 segments → error;
last segment's end time above 1200 s (20 min) → error; otherwise a
project is created from the segments.  `internalError` models the
`except` clause catching an exception from `_time_to_seconds`. -/
def parse_srt_file (content : List Char) : SrtFileOutcome :=
  let segs := parseSrt content
  if segs = [] then .rejected .invalidOrEmpty
  else if 500 < segs.length then .rejected .tooManySegments
  else
    match timeToSeconds ((segs.getLastD ⟨0, [], [], [], [], []⟩).stop) with
    | none => .rejected .internalError
    | some lastEnd =>
      if 1200 < lastEnd then .rejected .tooLong
      else .accepted segs

/-- Claim C9: ingestion rejects a parse of more than 500 segments and a
parse whose last segment ends after 1200 s, and every accepted file
satisfies both bounds (accepted segments are exactly the parse). -/
theorem c9_ingestion_bounds (content : List Char) :
    (∀ segs, parse_srt_file content = .accepted segs →
      segs = parseSrt content ∧ segs.length ≤ 500 ∧
      ∃ q, timeToSeconds ((segs.getLastD ⟨0, [], [], [], [], []⟩).stop) = some q ∧
        q ≤ 1200) ∧
    (parseSrt content ≠ [] → 500 < (parseSrt content).length →
      parse_srt_file content = .rejected .tooManySegments) ∧
    (∀ q, parseSrt content ≠ [] → (parseSrt content).length ≤ 500 →
      timeToSeconds (((parseSrt content).getLastD ⟨0, [], [], [], [], []⟩).stop) =
        some q →
      1200 < q → parse_srt_file content = .rejected .tooLong) := by
  refine ⟨?_, ?_, ?_⟩
  · intro segs h
    simp only [parse_srt_file] at h
    split_ifs at h with h1 h2
    · split at h
      · exact absurd h (by simp)
      · rename_i q hq
        rcases lt_or_le 1200 q with h3 | h3
        · rw [if_pos h3] at h
          exact absurd h (by simp)
        · rw [if_neg (not_lt.mpr h3)] at h
          simp only [SrtFileOutcome.accepted.injEq] at h
          subst h
          exact ⟨rfl, by omega, q, hq, h3⟩
  · intro h1 h2
    simp only [parse_srt_file]
    rw [if_neg h1, if_pos h2]
  · intro q h1 h2 h3 h4
    simp only [parse_srt_file]
    rw [if_neg h1, if_neg (by omega), h3]
    simp only []
    rw [if_pos h4]

/-- Witness document for C9: a single well-formed record ending at 2 s. -/
def docSimple : List Char := "1\n00:00:01,000 --> 00:00:02,000\nhello".data

/-- Witness for C9: `docSimple` is accepted, and the theorem yields both
bounds for it. -/
theorem c9_ingestion_bounds_witness :
    parse_srt_file docSimple = .accepted (parseSrt docSimple) ∧
    (parseSrt docSimple).length ≤ 500 ∧
    ∃ q, timeToSeconds (((parseSrt docSimple).getLastD
        ⟨0, [], [], [], [], []⟩).stop) = some q ∧ q ≤ 1200 := by
  have h : parse_srt_file docSimple = .accepted (parseSrt docSimple) := by decide
  have hb := (c9_ingestion_bounds docSimple).1 (parseSrt docSimple) h
  exact ⟨h, hb.2.1, hb.2.2⟩
